import Mathlib

/- Verification of the Redditscrape downloader (src/main.py) against its
   specification.  The Python functions are shallowly embedded as Lean
   definitions; upstream feeds, output files and probe outcomes are explicit
   data.  Part 1 holds the definitions, Part 2 the theorems. -/

/- ===================== Part 1: definitions ===================== -/

/- ----- iter_new_until (src/main.py lines 282-297) ----- -/

/-- A submission as seen by the fetch loop: its creation timestamp in epoch
    seconds, as read by `int(getattr(s, "created_utc", 0))`, plus an id so
    that distinct items stay distinguishable. -/
structure Submission where
  id : Nat
  created_utc : Int
deriving DecidableEq, Repr

/-- Model of the test `before is not None and cu > before`. -/
def tooFresh (before : Option Int) (cu : Int) : Bool :=
  match before with
  | none => false
  | some b => cu > b

/-- Model of the test `after is not None and cu < after`. -/
def tooOld (after : Option Int) (cu : Int) : Bool :=
  match after with
  | none => false
  | some a => cu < a

/-- Model of `hard_limit and count >= hard_limit`: by Python truthiness a
    `hard_limit` of `None` or `0` enforces no limit at all. -/
def hardLimitHit (hl : Option Int) (count : Nat) : Bool :=
  match hl with
  | none => false
  | some n => if n = 0 then false else decide (n ≤ (count : Int))

/-- The loop body of iter_new_until; `count` is the number of items yielded
    so far.  For each scanned item: a too-fresh item is skipped and scanning
    continues; a too-old item stops the iteration; otherwise the item is
    yielded, the count incremented, and the hard limit checked. -/
def iterGo (before after hl : Option Int) : List Submission → Nat → List Submission
  | [], _ => []
  | s :: feed, count =>
    if tooFresh before s.created_utc then iterGo before after hl feed count
    else if tooOld after s.created_utc then []
    else if hardLimitHit hl (count + 1) then [s]
    else s :: iterGo before after hl feed (count + 1)

/-- Model of `iter_new_until(subreddit, before, after, hard_limit)`: the
    subreddit's reverse-chronological `new` feed is given as an explicit
    list, and the generator's output is the list of yielded items. -/
def iter_new_until (feed : List Submission) (before after hl : Option Int) :
    List Submission :=
  iterGo before after hl feed 0

/- ----- NDJSON buffering in download_submissions_and_comments
        (src/main.py lines 143-147, 336-423) ----- -/

/-- Model of ndjson_append: the file is the list of its lines, and the items
    are appended one JSON object per line. -/
def ndjson_append {α : Type} (file : List α) (items : List α) : List α :=
  file ++ items

/-- The mutable state of one community's NDJSON run: the two output files
    (as lists of lines) and the two in-memory buffers. -/
structure RunState (α β : Type) where
  subFile : List α
  cmtFile : List β
  subBuf : List α
  cmtBuf : List β
deriving DecidableEq, Repr

/-- Empty files and empty buffers at the start of a community's run. -/
def initState {α β : Type} : RunState α β := ⟨[], [], [], []⟩

/-- One iteration of the NDJSON branch of the fetch loop: buffer the
    normalized post, extend the comments buffer if the post had comments,
    then flush the posts buffer once it has reached 50 entries and the
    comments buffer once it has reached 200 entries. -/
def ndjsonStep {α β : Type} (st : RunState α β) (p : α × List β) : RunState α β :=
  let st1 : RunState α β :=
    { st with subBuf := st.subBuf ++ [p.1],
              cmtBuf := if p.2.isEmpty then st.cmtBuf else st.cmtBuf ++ p.2 }
  let st2 : RunState α β :=
    if 50 ≤ st1.subBuf.length then
      { st1 with subFile := ndjson_append st1.subFile st1.subBuf, subBuf := [] }
    else st1
  if 200 ≤ st2.cmtBuf.length then
    { st2 with cmtFile := ndjson_append st2.cmtFile st2.cmtBuf, cmtBuf := [] }
  else st2

/-- The flush after the loop (`if submissions_buf: ... if comments_buf: ...`)
    run on normal completion only. -/
def finalFlush {α β : Type} (st : RunState α β) : RunState α β :=
  let st1 : RunState α β :=
    if st.subBuf.isEmpty then st
    else { st with subFile := ndjson_append st.subFile st.subBuf, subBuf := [] }
  if st1.cmtBuf.isEmpty then st1
  else { st1 with cmtFile := ndjson_append st1.cmtFile st1.cmtBuf, cmtBuf := [] }

/-- A per-community run script: the posts the fetch loop will deliver (each
    with its expanded, normalized comments) and an optional failure point.
    `failAfter = some k` means the upstream raises one of the caught
    transport errors (Redirect, NotFound, Forbidden) while fetching or
    expanding after exactly k posts were fully processed and buffered. -/
structure RunScript (α β : Type) where
  posts : List (α × List β)
  failAfter : Option Nat
deriving Repr

/-- The observable outcome of one community's run: the two NDJSON files,
    whether the `finally` cleanup ran (it flushes and closes the text-mode
    handle when one is open), and whether the run ended in the except-branch. -/
structure RunResult (α β : Type) where
  subFile : List α
  cmtFile : List β
  txtClosed : Bool
  failed : Bool
deriving DecidableEq, Repr

/-- Model of download_submissions_and_comments in NDJSON mode: on normal
    completion the remaining buffers are flushed; when a transport error is
    raised the except-branch returns without flushing (the buffered records
    are discarded), and the finally-branch runs in both cases. -/
def download {α β : Type} (script : RunScript α β) : RunResult α β :=
  match script.failAfter with
  | none =>
    let st := finalFlush (script.posts.foldl ndjsonStep initState)
    ⟨st.subFile, st.cmtFile, true, false⟩
  | some k =>
    let st := (script.posts.take k).foldl ndjsonStep initState
    ⟨st.subFile, st.cmtFile, true, true⟩

/-- The main loop over the requested communities: download returns normally
    even for a failed community (the transport exceptions are caught inside
    it), so every community in the list is processed in order. -/
def runBatch {α β : Type} (scripts : List (RunScript α β)) : List (RunResult α β) :=
  scripts.map download

/-- Invariant of the loop state: each buffer is strictly below its flush
    threshold after every step, and the posts file only ever grows by whole
    flushes of exactly 50 lines. -/
def BufInv {α β : Type} (st : RunState α β) : Prop :=
  st.subBuf.length < 50 ∧ st.cmtBuf.length < 200 ∧ st.subFile.length % 50 = 0

/- ----- resolve_subreddit (src/main.py lines 45-74) and the actual
        orchestration (lines 318-346, 472-483) ----- -/

/-- Python's `s.strip()`: drop whitespace from both ends (strings are worked
    with as their character lists, where the kernel can compute). -/
def pyStrip (cs : List Char) : List Char :=
  ((cs.dropWhile Char.isWhitespace).reverse.dropWhile Char.isWhitespace).reverse

/-- Python's `s.lower()` for the ASCII range. -/
def pyLower (cs : List Char) : List Char := cs.map Char.toLower

/-- Helper for Python's `s.split()`: accumulate the current token reversed. -/
def tokensAux : List Char → List Char → List (List Char)
  | [], acc => if acc = [] then [] else [acc.reverse]
  | c :: r, acc =>
    if c.isWhitespace then
      if acc = [] then tokensAux r [] else acc.reverse :: tokensAux r []
    else tokensAux r (c :: acc)

/-- Python's `s.split()` with no argument: the maximal whitespace-free runs. -/
def pyTokens (cs : List Char) : List (List Char) := tokensAux cs []

/-- Outcome of the existence/access probe `sr._fetch()` together with the
    quarantine flag read after a successful fetch. -/
inductive ProbeOutcome
  | ok (quarantine : Bool)
  | redirect
  | notFound
  | forbidden
  | otherError
deriving DecidableEq, Repr

/-- Model of resolve_subreddit: strip the name, drop a leading "r/", probe,
    and return the validated handle (here the cleaned name), or none on the
    quarantined / redirect / not-found / forbidden / unknown outcomes. -/
def resolve_subreddit (name : String) (probe : ProbeOutcome) : Option String :=
  let cs := pyStrip name.data
  if cs = [] then none
  else
    let cs := if ['r', '/'].isPrefixOf cs then cs.drop 2 else cs
    match probe with
    | .ok q => if q then none else some (String.mk cs)
    | _ => none

/-- The upstream interactions a community's processing can issue: the
    existence/access probe (`sr._fetch()` inside resolve_subreddit), a fetch
    of the `new` feed, and a comment-tree expansion (`replace_more`). -/
inductive UpstreamEvent
  | probe
  | feedFetch
  | expandComments
deriving DecidableEq, Repr

/-- The upstream interactions of download_submissions_and_comments for one
    community, in order.  `reddit.subreddit(name)` is lazy and performs no
    request, and resolve_subreddit (which would issue the probe) is never
    called by it or by main, so the first upstream interaction is the feed
    fetch itself; each post with a nonzero comment count then triggers one
    replace_more expansion. -/
def downloadEvents (includeComments : Bool) (numComments : List Nat) :
    List UpstreamEvent :=
  UpstreamEvent.feedFetch ::
    numComments.foldr
      (fun n evs =>
        (if includeComments && !(n == 0) then [UpstreamEvent.expandComments] else []) ++ evs)
      []

/-- The claim's property, read off an event trace: if the feed is fetched at
    all, an existence/access probe precedes the first fetch. -/
def validatedBeforeFetch (evs : List UpstreamEvent) : Bool :=
  !(evs.contains UpstreamEvent.feedFetch) ||
    (evs.takeWhile (fun e => e != UpstreamEvent.feedFetch)).contains UpstreamEvent.probe

/- ----- to_epoch (src/main.py lines 111-127) ----- -/

/-- Numeric value of a decimal digit character. -/
def digitVal (c : Char) : Nat := c.toNat - 48

/-- Value of a list of decimal digit characters. -/
def digitsToNat (cs : List Char) : Nat :=
  cs.foldl (fun a c => 10 * a + digitVal c) 0

/-- Strip one optional leading sign, returning (isNegative, rest). -/
def stripSign (cs : List Char) : Bool × List Char :=
  match cs with
  | [] => (false, [])
  | c :: r => if c = '-' then (true, r) else if c = '+' then (false, r) else (false, c :: r)

/-- A parsed decimal float literal: sign, the digits of the integer and
    fractional parts run together, the length of the fractional part, and
    the exponent. -/
structure FloatLit where
  neg : Bool
  mantissa : Nat
  fracLen : Nat
  exp : Int
deriving DecidableEq, Repr

/-- Parser for the decimal core of a Python float literal: optional sign,
    digits, optional fractional part, optional exponent.  Whitespace,
    underscores, inf and nan are outside the model. -/
def parseFloatLit (cs : List Char) : Option FloatLit :=
  let sp := stripSign cs
  let ip := sp.2.takeWhile Char.isDigit
  let cs2 := sp.2.dropWhile Char.isDigit
  let fpcs : List Char × List Char :=
    match cs2 with
    | [] => ([], [])
    | c :: r =>
      if c = '.' then (r.takeWhile Char.isDigit, r.dropWhile Char.isDigit)
      else ([], c :: r)
  if ip = [] && fpcs.1 = [] then none
  else
    match fpcs.2 with
    | [] => some ⟨sp.1, digitsToNat (ip ++ fpcs.1), fpcs.1.length, 0⟩
    | c :: r =>
      if c = 'e' || c = 'E' then
        let esp := stripSign r
        let ed := esp.2.takeWhile Char.isDigit
        let rest := esp.2.dropWhile Char.isDigit
        if ed = [] || rest ≠ [] then none
        else
          some ⟨sp.1, digitsToNat (ip ++ fpcs.1), fpcs.1.length,
                if esp.1 then -(digitsToNat ed : Int) else (digitsToNat ed : Int)⟩
      else none

/-- The integer a float literal truncates to (toward zero, as Python's
    int() does). -/
def intOfFloatLit (f : FloatLit) : Int :=
  let mag : Nat :=
    if (f.fracLen : Int) ≤ f.exp then f.mantissa * 10 ^ (f.exp - f.fracLen).toNat
    else f.mantissa / 10 ^ ((f.fracLen : Int) - f.exp).toNat
  if f.neg then -(mag : Int) else (mag : Int)

/-- Decimal-exact model of `int(float(dt))`: none when float() would raise
    ValueError.  (The binary rounding of IEEE doubles is not modelled; the
    two agree on all integers below 2^53, which covers epoch seconds.) -/
def pyIntOfFloat (cs : List Char) : Option Int :=
  match parseFloatLit cs with
  | none => none
  | some f => some (intOfFloatLit f)

/-- Gregorian leap year rule. -/
def isLeap (y : Nat) : Bool := y % 4 = 0 && (y % 100 ≠ 0 || y % 400 = 0)

/-- Length of a month. -/
def daysInMonth (y m : Nat) : Nat :=
  if m = 2 then (if isLeap y then 29 else 28)
  else if m = 4 || m = 6 || m = 9 || m = 11 then 30 else 31

/-- Parse and validate a `YYYY-MM-DD` date (year 1..9999, day checked
    against the month length as datetime does). -/
def parseIsoDate (cs : List Char) : Option (Nat × Nat × Nat) :=
  match cs with
  | [a, b, c, d, s1, e, f, s2, g, h] =>
    if s1 = '-' && s2 = '-' && a.isDigit && b.isDigit && c.isDigit && d.isDigit &&
        e.isDigit && f.isDigit && g.isDigit && h.isDigit then
      let y := 1000 * digitVal a + 100 * digitVal b + 10 * digitVal c + digitVal d
      let m := 10 * digitVal e + digitVal f
      let dd := 10 * digitVal g + digitVal h
      if 1 ≤ y && 1 ≤ m && m ≤ 12 && 1 ≤ dd && dd ≤ daysInMonth y m then
        some (y, m, dd)
      else none
    else none
  | _ => none

/-- Parse a time of day `HH`, `HH:MM` or `HH:MM:SS` into seconds in the day. -/
def parseIsoTime (cs : List Char) : Option Nat :=
  match cs with
  | [h1, h2] =>
    if h1.isDigit && h2.isDigit then
      let h := 10 * digitVal h1 + digitVal h2
      if h ≤ 23 then some (3600 * h) else none
    else none
  | [h1, h2, c1, m1, m2] =>
    if h1.isDigit && h2.isDigit && c1 = ':' && m1.isDigit && m2.isDigit then
      let h := 10 * digitVal h1 + digitVal h2
      let mi := 10 * digitVal m1 + digitVal m2
      if h ≤ 23 && mi ≤ 59 then some (3600 * h + 60 * mi) else none
    else none
  | [h1, h2, c1, m1, m2, c2, t1, t2] =>
    if h1.isDigit && h2.isDigit && c1 = ':' && m1.isDigit && m2.isDigit &&
        c2 = ':' && t1.isDigit && t2.isDigit then
      let h := 10 * digitVal h1 + digitVal h2
      let mi := 10 * digitVal m1 + digitVal m2
      let t := 10 * digitVal t1 + digitVal t2
      if h ≤ 23 && mi ≤ 59 && t ≤ 59 then some (3600 * h + 60 * mi + t) else none
    else none
  | _ => none

/-- Days from 1970-01-01 of a Gregorian date with year 1..9999, by the
    standard integer-arithmetic civil-calendar formula; this is the day
    count underlying datetime.timestamp() for a UTC datetime. -/
def daysFromCivil (y m d : Nat) : Int :=
  let yy := if m ≤ 2 then y - 1 else y
  let era := yy / 400
  let yoe := yy % 400
  let mp := (m + 9) % 12
  let doy := (153 * mp + 2) / 5 + d - 1
  let doe := yoe * 365 + yoe / 4 - yoe / 100 + doy
  ((era * 146097 + doe : Nat) : Int) - 719468

/-- Model of `int(datetime.fromisoformat(s).replace(tzinfo=timezone.utc)
    .timestamp())` for the dashed date form with an optional 'T' time part
    of shape HH, HH:MM or HH:MM:SS — the forms reachable from to_epoch's
    call sites.  Fractional seconds, offsets and other separators are
    outside the model (they matter to none of the settled statements). -/
def fromisoformatTimestamp (cs : List Char) : Option Int :=
  match parseIsoDate (cs.take 10) with
  | none => none
  | some (y, m, d) =>
    match cs.drop 10 with
    | [] => some (86400 * daysFromCivil y m d)
    | c :: timecs =>
      if c = 'T' then
        match parseIsoTime timecs with
        | some t => some (86400 * daysFromCivil y m d + (t : Int))
        | none => none
      else none

/-- The body of to_epoch on a present string (as its character list): try
    `int(float(dt))` (a ValueError falls through); otherwise parse as ISO,
    with the string used as-is when it contains a 'T' and with "T00:00:00"
    appended when not.  A parse failure there is the InvalidTimeFormat
    error (an uncaught ValueError in the source). -/
def to_epochChars (cs : List Char) : Except Unit (Option Int) :=
  match pyIntOfFloat cs with
  | some n => .ok (some n)
  | none =>
    if cs.contains 'T' then
      match fromisoformatTimestamp cs with
      | some n => .ok (some n)
      | none => .error ()
    else
      match fromisoformatTimestamp (cs ++ "T00:00:00".data) with
      | some n => .ok (some n)
      | none => .error ()

/-- Model of to_epoch: None maps to None, a present string is parsed by
    to_epochChars. -/
def to_epoch : Option String → Except Unit (Option Int)
  | none => .ok none
  | some dt => to_epochChars dt.data

/-- The decimal digit character for n % 10. -/
def digitChar (n : Nat) : Char :=
  ['0', '1', '2', '3', '4', '5', '6', '7', '8', '9'].getD (n % 10) '0'

/-- The canonical `YYYY-MM-DD` rendering of a date. -/
def renderDate (y m d : Nat) : List Char :=
  [digitChar (y / 1000), digitChar (y / 100), digitChar (y / 10), digitChar y, '-',
   digitChar (m / 10), digitChar m, '-', digitChar (d / 10), digitChar d]

/-- The canonical `HH:MM:SS` rendering of a time of day. -/
def renderTime (h mi t : Nat) : List Char :=
  [digitChar (h / 10), digitChar h, ':', digitChar (mi / 10), digitChar mi, ':',
   digitChar (t / 10), digitChar t]

/-- A necessary condition for the claim's shape (a), a bare integer/float
    string: every character is one that can occur in such a literal.  (Used
    only negatively: a string failing this matches shape (a) under no
    reading.) -/
def specNumericShape (s : String) : Bool :=
  !s.data.isEmpty &&
    s.data.all (fun c =>
      c.isDigit || c = '+' || c = '-' || c = '.' || c = 'e' || c = 'E')

/-- The claim's shape (b): exactly `YYYY-MM-DD`. -/
def specDateShape (s : String) : Bool :=
  match s.data with
  | [a, b, c, d, s1, e, f, s2, g, h] =>
    a.isDigit && b.isDigit && c.isDigit && d.isDigit && s1 = '-' &&
      e.isDigit && f.isDigit && s2 = '-' && g.isDigit && h.isDigit
  | _ => false

/-- The claim's shape (c): exactly `YYYY-MM-DDTHH:MM:SS`. -/
def specDateTimeShape (s : String) : Bool :=
  match s.data with
  | [a, b, c, d, s1, e, f, s2, g, h, t, h1, h2, c1, m1, m2, c2, t1, t2] =>
    a.isDigit && b.isDigit && c.isDigit && d.isDigit && s1 = '-' &&
      e.isDigit && f.isDigit && s2 = '-' && g.isDigit && h.isDigit &&
      t = 'T' && h1.isDigit && h2.isDigit && c1 = ':' && m1.isDigit &&
      m2.isDigit && c2 = ':' && t1.isDigit && t2.isDigit
  | _ => false

/- ----- normalize (src/main.py lines 175-185) ----- -/

/-- A Python value as normalize can meet one: None, a plain string, an int,
    a bool, a PRAW Redditor (author object, carrying its `name`), or a PRAW
    Subreddit reference (carrying an optional `display_name` and the string
    `str(v)` falls back to). -/
inductive PyVal
  | null
  | str (s : String)
  | int (n : Int)
  | bool (b : Bool)
  | redditor (name : Option String)
  | subredditRef (displayName : Option String) (raw : String)
deriving DecidableEq, Repr

/-- `isinstance(v, str)`. -/
def PyVal.isStr : PyVal → Bool
  | .str _ => true
  | _ => false

/-- `str(v)` for the values above; the renderings of the object cases are
    fixed but arbitrary (they are only reachable on type-confused input). -/
def pyStr : PyVal → String
  | .null => "None"
  | .str s => s
  | .int n => toString n
  | .bool b => if b then "True" else "False"
  | .redditor name => name.getD "Redditor"
  | .subredditRef _ raw => raw

/-- `getattr(v, "name", None)`: a Redditor yields its name, anything else
    the default None. -/
def getattrName : PyVal → PyVal
  | .redditor (some n) => .str n
  | _ => .null

/-- `str(getattr(v, "display_name", v))`: a Subreddit reference with a
    display name yields it; otherwise str of the value itself. -/
def subredditCoerce (v : PyVal) : PyVal :=
  match v with
  | .subredditRef (some dn) _ => .str dn
  | w => .str (pyStr w)

/-- `obj.get(k)`: the value under k, or None when the key is absent. -/
def pyGet (obj : List (String × PyVal)) (k : String) : PyVal :=
  (obj.lookup k).getD .null

/-- Model of normalize(obj, fields): one output entry per listed field, the
    author and subreddit fields coerced when they are non-None non-strings,
    everything else passed through (a missing field becomes None). -/
def normField (obj : List (String × PyVal)) (k : String) : PyVal :=
  let v := pyGet obj k
  let v := if k = "author" ∧ v ≠ PyVal.null ∧ v.isStr = false then getattrName v else v
  if k = "subreddit" ∧ v ≠ PyVal.null ∧ v.isStr = false then subredditCoerce v else v

/-- normalize builds the output dict by inserting the fields in order (the
    source's name `normalize` is taken by Mathlib). -/
def normalizeDict (obj : List (String × PyVal)) (fields : List String) :
    List (String × PyVal) :=
  fields.map (fun k => (k, normField obj k))

/-- The submission field whitelist SUB_FIELDS. -/
def SUB_FIELDS : List String :=
  ["id", "title", "author", "subreddit", "created_utc", "selftext", "url",
   "permalink", "num_comments", "score", "over_18", "spoiler", "locked", "stickied"]

/-- The comment field whitelist CMT_FIELDS. -/
def CMT_FIELDS : List String :=
  ["id", "author", "subreddit", "created_utc", "body", "score",
   "parent_id", "link_id", "permalink", "is_submitter"]

/- ----- load_subreddits_from_file (src/main.py lines 80-104) ----- -/

/-- How a run of load_subreddits_from_file can fail: the uncaught IndexError
    from `line.split()[0]` on a line with no token left, or the RuntimeError
    raised when no subreddits were found. -/
inductive LoadError
  | indexError
  | emptyFile
deriving DecidableEq, Repr

/-- The first whitespace-delimited token of a line, if any. -/
def firstToken (cs : List Char) : Option String :=
  (pyTokens cs).head?.map String.mk

/-- `raw.strip()` of an input line. -/
def strippedLine (raw : String) : List Char := pyStrip raw.data

/-- Whether the loader keeps a line: not blank and not a '#' comment. -/
def lineKept (raw : String) : Bool :=
  !(decide (strippedLine raw = []) || ['#'].isPrefixOf (strippedLine raw))

/-- The kept line after the case-insensitive "r/" marker strip
    (`if line.lower().startswith("r/"): line = line[2:]`). -/
def markerStripped (raw : String) : List Char :=
  if ['r', '/'].isPrefixOf (pyLower (strippedLine raw)) then (strippedLine raw).drop 2
  else strippedLine raw

/-- The line loop of load_subreddits_from_file, with the accumulated result
    list (membership in it is the `seen` set); `line.split()[0]` on a line
    with no token is the uncaught IndexError. -/
def loadGo : List String → List String → Except LoadError (List String)
  | [], subs => if subs = [] then .error .emptyFile else .ok subs
  | raw :: rest, subs =>
    if lineKept raw then
      match pyTokens (markerStripped raw) with
      | [] => .error .indexError
      | tok :: _ =>
        if String.mk tok ≠ "" ∧ String.mk tok ∉ subs then
          loadGo rest (subs ++ [String.mk tok])
        else loadGo rest subs
    else loadGo rest subs

/-- Model of load_subreddits_from_file; the file is the list of its lines. -/
def load_subreddits_from_file (lines : List String) : Except LoadError (List String) :=
  loadGo lines []

/-- The claim's description of one line's contribution: ignore blank and
    comment lines, strip the optional namespace marker, keep the first
    whitespace-delimited token. -/
def specLoadTokens (lines : List String) : List String :=
  lines.filterMap (fun raw =>
    if lineKept raw then firstToken (markerStripped raw) else none)

/-- De-duplication preserving first-seen order. -/
def dedupKeepFirst (toks : List String) : List String :=
  toks.foldl (fun acc t => if t ∈ acc then acc else acc ++ [t]) []

/-- The loader as the claim describes it: the de-duplicated token list, or
    an error when that list is empty. -/
def specLoadSubreddits (lines : List String) : Except LoadError (List String) :=
  let subs := dedupKeepFirst (specLoadTokens lines)
  if subs = [] then .error .emptyFile else .ok subs

/- ----- last_submission_ts (src/main.py lines 154-168) ----- -/

/-- One line of an NDJSON posts file, as last_submission_ts sees it:
    malformed covers any line on which json.loads or the int conversion
    raises (the except-branch skips it); a record carries its created_utc
    value when the key is present, and `d.get("created_utc", 0)` supplies 0
    when it is not. -/
inductive NdLine
  | malformed
  | record (createdUtc : Option Int)
deriving DecidableEq, Repr

/-- The body of the probe's loop on one line:
    `if last_ts is None or cu < last_ts: last_ts = cu`, skipping a malformed
    line. -/
def lastStep (last : Option Int) (l : NdLine) : Option Int :=
  match l with
  | NdLine.malformed => last
  | NdLine.record cu =>
    let c := cu.getD 0
    match last with
    | none => some c
    | some t => if c < t then some c else some t

/-- Model of last_submission_ts: none for an absent file, otherwise the fold
    of the loop above over the lines. -/
def last_submission_ts : Option (List NdLine) → Option Int
  | none => none
  | some lines => lines.foldl lastStep none

/-- The value the probe derives from one line: none for a malformed line,
    otherwise created_utc defaulted to 0. -/
def lineValue : NdLine → Option Int
  | NdLine.malformed => none
  | NdLine.record cu => some (cu.getD 0)

/-- The claim's quantity: the minimum creation timestamp actually observed
    across the parseable lines (lines without the key contribute nothing). -/
def specObservedMin (lines : List NdLine) : Option Int :=
  (lines.filterMap (fun l =>
    match l with
    | NdLine.record (some c) => some c
    | _ => none)).min?

/- ===================== Part 2: theorems ===================== -/

/- ----- C1: the time window in iter_new_until ----- -/

/-- Helper: with no hard limit, the scan is takeWhile-not-too-old followed by
    filter-not-too-fresh, for any window whose bounds satisfy after ≤ before
    whenever both are set. -/
theorem iterGo_none_eq (before after : Option Int)
    (hba : ∀ b a, before = some b → after = some a → a ≤ b)
    (feed : List Submission) :
    ∀ count : Nat,
      iterGo before after none feed count =
        (feed.takeWhile (fun s => !tooOld after s.created_utc)).filter
          (fun s => !tooFresh before s.created_utc) := by
  induction feed with
  | nil => intro count; simp [iterGo]
  | cons s feed ih =>
    intro count
    by_cases hf : tooFresh before s.created_utc = true
    · have hold : tooOld after s.created_utc = false := by
        cases hb : before with
        | none => rw [hb] at hf; simp [tooFresh] at hf
        | some b =>
          cases ha : after with
          | none => simp [tooOld]
          | some a =>
            have hab := hba b a hb ha
            rw [hb] at hf
            simp only [tooFresh, decide_eq_true_eq] at hf
            simp only [tooOld, decide_eq_false_iff_not]
            omega
      simp [iterGo, hf, hold, ih count]
    · by_cases ho : tooOld after s.created_utc = true
      · simp [iterGo, hf, ho]
      · simp [iterGo, hf, ho, hardLimitHit, ih (count + 1)]

/-- C1: for every feed and every time window (after ≤ before whenever both
    bounds are set), the unlimited scan skips — but keeps scanning past —
    every item with created_utc strictly above `before`, stops at the first
    item with created_utc strictly below `after` without emitting it or any
    later item, and emits every other scanned item: the output is exactly
    take-while-not-older-than-after composed with drop-items-fresher-than-
    before. -/
theorem C1_window_scan (feed : List Submission) (before after : Option Int)
    (hba : ∀ b a, before = some b → after = some a → a ≤ b) :
    iter_new_until feed before after none =
      (feed.takeWhile (fun s => !tooOld after s.created_utc)).filter
        (fun s => !tooFresh before s.created_utc) :=
  iterGo_none_eq before after hba feed 0

/-- Witness for C1 at a concrete window and feed. -/
theorem C1_window_scan_witness :
    iter_new_until [⟨1, 10⟩, ⟨2, 7⟩, ⟨3, 3⟩] (some 8) (some 5) none = [⟨2, 7⟩] := by
  rw [C1_window_scan [⟨1, 10⟩, ⟨2, 7⟩, ⟨3, 3⟩] (some 8) (some 5)
    (by intro b a hb ha; cases hb; cases ha; omega)]
  decide

/- ----- C7: the hard item-count ceiling in iter_new_until ----- -/

/-- Helper: with a positive hard limit n and count emitted so far, the run
    is the take of the unlimited run. -/
theorem iterGo_limit_take (before after : Option Int) (n : Nat)
    (feed : List Submission) :
    ∀ count : Nat, count < n →
      iterGo before after (some (n : Int)) feed count =
        (iterGo before after none feed count).take (n - count) := by
  induction feed with
  | nil => intro count _; simp [iterGo]
  | cons s feed ih =>
    intro count hc
    by_cases hf : tooFresh before s.created_utc = true
    · simp [iterGo, hf, ih count hc]
    · by_cases ho : tooOld after s.created_utc = true
      · simp [iterGo, hf, ho]
      · have hrest : n - count = (n - (count + 1)) + 1 := by omega
        by_cases hn : n = count + 1
        · have hhit : hardLimitHit (some (n : Int)) (count + 1) = true := by
            simp only [hardLimitHit]
            rw [if_neg (by omega)]
            simp only [decide_eq_true_eq]
            omega
          have h1 : n - count = 1 := by omega
          have hnone : hardLimitHit none (count + 1) = false := rfl
          simp [iterGo, hf, ho, hhit, h1, hnone]
        · have hlt : count + 1 < n := by omega
          have hmiss : hardLimitHit (some (n : Int)) (count + 1) = false := by
            simp only [hardLimitHit]
            rw [if_neg (by omega)]
            simp only [decide_eq_false_iff_not]
            omega
          rw [hrest]
          have hnone : hardLimitHit none (count + 1) = false := rfl
          simp [iterGo, hf, ho, hmiss, hnone, ih (count + 1) hlt]

/-- C7 (amended): for every positive hard ceiling n, the limited run is the
    take of the first n items the unlimited run would emit — the ceiling
    counts emitted items only, skipped too-fresh items do not count — and in
    particular at most n items are emitted. -/
theorem C7_hard_limit (feed : List Submission) (before after : Option Int)
    (n : Nat) (h : 1 ≤ n) :
    iter_new_until feed before after (some (n : Int)) =
      (iter_new_until feed before after none).take n ∧
    (iter_new_until feed before after (some (n : Int))).length ≤ n := by
  have key := iterGo_limit_take before after n feed 0 (by omega)
  constructor
  · simpa [iter_new_until] using key
  · rw [iter_new_until, key]
    simp

/-- C7 counterexample: a caller-supplied ceiling of 0 is falsy in Python, so
    no limit at all is enforced and the number of emitted items exceeds the
    ceiling. -/
theorem C7_zero_limit_counterexample :
    iter_new_until [⟨1, 5⟩] none none (some 0) = [⟨1, 5⟩] ∧
    ¬ (iter_new_until [⟨1, 5⟩] none none (some 0)).length ≤ 0 := by
  constructor
  · rfl
  · decide

/-- Witness for C7 at a concrete positive ceiling. -/
theorem C7_hard_limit_witness :
    iter_new_until [⟨1, 5⟩, ⟨2, 4⟩, ⟨3, 3⟩] none none (some ((2 : Nat) : Int)) =
      [⟨1, 5⟩, ⟨2, 4⟩] := by
  rw [(C7_hard_limit [⟨1, 5⟩, ⟨2, 4⟩, ⟨3, 3⟩] none none 2 (by omega)).1]
  decide

/- ----- C2, C3: NDJSON buffering, flushing and the failure path ----- -/

/-- Helper: one loop step appends the post and its comments to the
    file-plus-buffer contents and preserves the buffer invariant. -/
theorem ndjsonStep_spec {α β : Type} (st : RunState α β) (p : α × List β) :
    (ndjsonStep st p).subFile ++ (ndjsonStep st p).subBuf
        = st.subFile ++ st.subBuf ++ [p.1] ∧
    (ndjsonStep st p).cmtFile ++ (ndjsonStep st p).cmtBuf
        = st.cmtFile ++ st.cmtBuf ++ p.2 ∧
    (BufInv st → BufInv (ndjsonStep st p)) := by
  by_cases hemp : p.2.isEmpty
  · rw [List.isEmpty_iff] at hemp
    simp only [ndjsonStep, ndjson_append, hemp]
    split_ifs with hs hc hc <;>
      simp_all [BufInv, List.length_append] <;> omega
  · simp only [ndjsonStep, ndjson_append, if_neg hemp]
    split_ifs with hs hc hc <;>
      simp_all [BufInv, List.length_append] <;> omega

/-- Helper: folding the loop over a post list appends all posts and all
    comments to the file-plus-buffer contents and keeps the invariant. -/
theorem foldl_ndjson_spec {α β : Type} (ps : List (α × List β)) :
    ∀ st : RunState α β,
      ((ps.foldl ndjsonStep st).subFile ++ (ps.foldl ndjsonStep st).subBuf
          = st.subFile ++ st.subBuf ++ ps.map Prod.fst) ∧
      ((ps.foldl ndjsonStep st).cmtFile ++ (ps.foldl ndjsonStep st).cmtBuf
          = st.cmtFile ++ st.cmtBuf ++ ps.flatMap Prod.snd) ∧
      (BufInv st → BufInv (ps.foldl ndjsonStep st)) := by
  induction ps with
  | nil => intro st; simp
  | cons p ps ih =>
    intro st
    obtain ⟨h1, h2, h3⟩ := ih (ndjsonStep st p)
    obtain ⟨g1, g2, g3⟩ := ndjsonStep_spec st p
    refine ⟨?_, ?_, ?_⟩
    · rw [List.foldl_cons, h1, g1]; simp
    · rw [List.foldl_cons, h2, g2]; simp
    · intro h; rw [List.foldl_cons]; exact h3 (g3 h)

/-- Helper: the final flush empties both buffers into the files. -/
theorem finalFlush_spec {α β : Type} (st : RunState α β) :
    (finalFlush st).subFile = st.subFile ++ st.subBuf ∧
    (finalFlush st).cmtFile = st.cmtFile ++ st.cmtBuf := by
  simp only [finalFlush, ndjson_append]
  split_ifs with h1 h2 h2 <;> simp_all [List.isEmpty_iff]

/-- The initial state satisfies the buffer invariant. -/
theorem initState_inv {α β : Type} : BufInv (initState : RunState α β) := by
  simp [BufInv, initState]

/-- C2: in NDJSON mode, on normal completion of a community's run every
    emitted post and comment record is in its output file and in order;
    moreover, after each processed post the posts buffer holds fewer than 50
    records, the comments buffer fewer than 200, and the posts file length
    is a multiple of 50 — the buffers were flushed exactly on reaching their
    thresholds, the posts file growing by flushes of exactly 50 lines. -/
theorem C2_ndjson_flush {α β : Type} (ps : List (α × List β)) :
    (download (⟨ps, none⟩ : RunScript α β)).subFile = ps.map Prod.fst ∧
    (download (⟨ps, none⟩ : RunScript α β)).cmtFile = ps.flatMap Prod.snd ∧
    ∀ n : Nat,
      ((ps.take n).foldl ndjsonStep (initState : RunState α β)).subBuf.length < 50 ∧
      ((ps.take n).foldl ndjsonStep (initState : RunState α β)).cmtBuf.length < 200 ∧
      ((ps.take n).foldl ndjsonStep (initState : RunState α β)).subFile.length % 50
        = 0 := by
  obtain ⟨h1, h2, _⟩ := foldl_ndjson_spec ps (initState : RunState α β)
  refine ⟨?_, ?_, ?_⟩
  · simp only [download]
    rw [(finalFlush_spec _).1, h1]
    simp [initState]
  · simp only [download]
    rw [(finalFlush_spec _).2, h2]
    simp [initState]
  · intro n
    obtain ⟨_, _, h3⟩ := foldl_ndjson_spec (ps.take n) (initState : RunState α β)
    obtain ⟨a, b, c⟩ := h3 initState_inv
    exact ⟨a, b, c⟩

/-- C3: when a community run hits one of the unrecoverable transport errors
    after k posts, the posts file holds exactly the flushed 50-post chunks
    (the buffered k % 50 most recent posts are discarded, records flushed
    before the failure stay unchanged), the comments file is exactly the
    flushed part of the comment stream (the buffered remainder discarded),
    the finally-cleanup runs, the run terminates in the failed state, and
    the batch still processes every other community. -/
theorem C3_failure_discard {α β : Type} (ps : List (α × List β)) (k : Nat)
    (hk : k ≤ ps.length) :
    (download (⟨ps, some k⟩ : RunScript α β)).subFile
        = ((ps.take k).map Prod.fst).take (k - k % 50) ∧
    (download (⟨ps, some k⟩ : RunScript α β)).cmtFile
          ++ ((ps.take k).foldl ndjsonStep (initState : RunState α β)).cmtBuf
        = (ps.take k).flatMap Prod.snd ∧
    (download (⟨ps, some k⟩ : RunScript α β)).txtClosed = true ∧
    (download (⟨ps, some k⟩ : RunScript α β)).failed = true ∧
    ∀ (pre post : List (RunScript α β)) (s : RunScript α β),
      runBatch (pre ++ s :: post) = runBatch pre ++ download s :: runBatch post := by
  obtain ⟨h1, h2, h3⟩ := foldl_ndjson_spec (ps.take k) (initState : RunState α β)
  obtain ⟨ha, hb, hc⟩ := h3 initState_inv
  have e1 : (initState : RunState α β).subFile = [] := rfl
  have e2 : (initState : RunState α β).subBuf = [] := rfl
  have e3 : (initState : RunState α β).cmtFile = [] := rfl
  have e4 : (initState : RunState α β).cmtBuf = [] := rfl
  rw [e1, e2, List.nil_append, List.nil_append] at h1
  rw [e3, e4, List.nil_append, List.nil_append] at h2
  have hlen : ((ps.take k).foldl ndjsonStep (initState : RunState α β)).subFile.length
      + ((ps.take k).foldl ndjsonStep (initState : RunState α β)).subBuf.length = k := by
    have hl := congrArg List.length h1
    simp only [List.length_append, List.length_map, List.length_take] at hl
    omega
  have hflen : ((ps.take k).foldl ndjsonStep (initState : RunState α β)).subFile.length
      = k - k % 50 := by omega
  refine ⟨?_, ?_, rfl, rfl, ?_⟩
  · simp only [download]
    have tl := List.take_left
      ((ps.take k).foldl ndjsonStep (initState : RunState α β)).subFile
      ((ps.take k).foldl ndjsonStep (initState : RunState α β)).subBuf
    rw [h1, hflen] at tl
    exact tl.symm
  · simp only [download]
    exact h2
  · intro pre post s
    simp [runBatch]

/-- Witness for C3 at a concrete script failing after 2 posts: nothing was
    flushed yet, so the posts file stays empty and the run is marked failed. -/
theorem C3_failure_discard_witness :
    (download (⟨[(1, [10]), (2, [20]), (3, [30])], some 2⟩ : RunScript Nat Nat)).subFile
        = [] ∧
    (download (⟨[(1, [10]), (2, [20]), (3, [30])], some 2⟩ : RunScript Nat Nat)).failed
        = true := by
  have h := C3_failure_discard [(1, [10]), (2, [20]), (3, [30])] 2 (by decide)
  refine ⟨?_, h.2.2.2.1⟩
  rw [h.1]
  decide

/- ----- C4: validation is never performed before fetching ----- -/

/-- C4 (evaluation of the bug): for a community whose probe would fail, the
    orchestrated download's upstream trace starts with the feed fetch and
    contains no existence/access probe at all — resolve_subreddit, which
    classifies all four resolution failures as a skip (returns none), is
    never invoked by download_submissions_and_comments or main, so no
    validation precedes fetching. -/
theorem C4_no_probe_before_fetch :
    validatedBeforeFetch (downloadEvents true [3]) = false ∧
    downloadEvents true [3]
        = [UpstreamEvent.feedFetch, UpstreamEvent.expandComments] ∧
    resolve_subreddit "nosuchsub" ProbeOutcome.redirect = none ∧
    resolve_subreddit "nosuchsub" ProbeOutcome.notFound = none ∧
    resolve_subreddit "nosuchsub" ProbeOutcome.forbidden = none ∧
    resolve_subreddit "nosuchsub" ProbeOutcome.otherError = none ∧
    resolve_subreddit "nosuchsub" (ProbeOutcome.ok true) = none := by
  refine ⟨rfl, rfl, ?_, ?_, ?_, ?_, ?_⟩ <;> decide

/- ----- C5: to_epoch ----- -/

/-- Helper: a leading decimal digit is not consumed as a sign. -/
theorem stripSign_digit (c : Char) (t : List Char) (hc : c.isDigit = true) :
    stripSign (c :: t) = (false, c :: t) := by
  have hcm : ¬ c = '-' := by intro h; rw [h] at hc; exact absurd hc (by decide)
  have hcp : ¬ c = '+' := by intro h; rw [h] at hc; exact absurd hc (by decide)
  simp [stripSign, hcm, hcp]

/-- Helper: int(float(s)) is the identity value on a pure digit string. -/
theorem pyIntOfFloat_digits (cs : List Char) (h1 : cs ≠ [])
    (h2 : ∀ c ∈ cs, c.isDigit = true) :
    pyIntOfFloat cs = some ((digitsToNat cs : Nat) : Int) := by
  obtain ⟨c, t, rfl⟩ := List.exists_cons_of_ne_nil h1
  have hsign := stripSign_digit c t (h2 c (List.mem_cons_self c t))
  have htake : (c :: t).takeWhile Char.isDigit = c :: t :=
    List.takeWhile_eq_self_iff.mpr h2
  have hdrop : (c :: t).dropWhile Char.isDigit = [] :=
    List.dropWhile_eq_nil_iff.mpr h2
  simp [pyIntOfFloat, parseFloatLit, hsign, htake, hdrop, intOfFloatLit]

/-- Helper: to_epoch is the identity on nonempty digit strings. -/
theorem to_epoch_digits (s : String) (h1 : s.data ≠ [])
    (h2 : ∀ c ∈ s.data, c.isDigit = true) :
    to_epoch (some s) = .ok (some ((digitsToNat s.data : Nat) : Int)) := by
  simp [to_epoch, to_epochChars, pyIntOfFloat_digits s.data h1 h2]

/-- Helper: digitChar always yields a decimal digit character, whose value
    is the argument mod 10. -/
theorem digitChar_props (n : Nat) :
    (digitChar n).isDigit = true ∧ digitVal (digitChar n) = n % 10 := by
  have h : n % 10 < 10 := Nat.mod_lt _ (by omega)
  have key : ∀ r, r < 10 →
      ((['0', '1', '2', '3', '4', '5', '6', '7', '8', '9'].getD r '0').isDigit = true ∧
        digitVal (['0', '1', '2', '3', '4', '5', '6', '7', '8', '9'].getD r '0') = r) := by
    decide
  unfold digitChar
  exact key (n % 10) h

theorem digitChar_isDigit (n : Nat) : (digitChar n).isDigit = true :=
  (digitChar_props n).1

theorem digitVal_digitChar (n : Nat) : digitVal (digitChar n) = n % 10 :=
  (digitChar_props n).2

/-- Helper: digitChar is never one of the delimiter characters. -/
theorem digitChar_ne (n : Nat) :
    digitChar n ≠ '-' ∧ digitChar n ≠ '+' ∧ digitChar n ≠ '.' ∧
      digitChar n ≠ 'e' ∧ digitChar n ≠ 'E' ∧ digitChar n ≠ 'T' := by
  have h : n % 10 < 10 := Nat.mod_lt _ (by omega)
  have key : ∀ r, r < 10 →
      (['0', '1', '2', '3', '4', '5', '6', '7', '8', '9'].getD r '0' ≠ '-' ∧
        ['0', '1', '2', '3', '4', '5', '6', '7', '8', '9'].getD r '0' ≠ '+' ∧
        ['0', '1', '2', '3', '4', '5', '6', '7', '8', '9'].getD r '0' ≠ '.' ∧
        ['0', '1', '2', '3', '4', '5', '6', '7', '8', '9'].getD r '0' ≠ 'e' ∧
        ['0', '1', '2', '3', '4', '5', '6', '7', '8', '9'].getD r '0' ≠ 'E' ∧
        ['0', '1', '2', '3', '4', '5', '6', '7', '8', '9'].getD r '0' ≠ 'T') := by
    decide
  unfold digitChar
  exact key (n % 10) h

/-- Helper: `int(float(s))` raises ValueError on anything that starts with a
    rendered date (the dash after the year stops the digit run). -/
theorem pyIntOfFloat_renderDate (y m d : Nat) (suffix : List Char) :
    pyIntOfFloat (renderDate y m d ++ suffix) = none := by
  obtain ⟨n1, n2, n3, n4, n5, n6⟩ := digitChar_ne (y / 1000)
  simp [pyIntOfFloat, parseFloatLit, renderDate, stripSign, n1, n2,
    List.takeWhile, List.dropWhile, digitChar_isDigit]

/-- Helper: no month is longer than 31 days. -/
theorem daysInMonth_le (y m : Nat) : daysInMonth y m ≤ 31 := by
  unfold daysInMonth
  split_ifs <;> omega

/-- Helper: parsing the rendered form of a valid date recovers the date. -/
theorem parseIsoDate_render (y m d : Nat) (hy1 : 1 ≤ y) (hy2 : y ≤ 9999)
    (hm1 : 1 ≤ m) (hm2 : m ≤ 12) (hd1 : 1 ≤ d) (hd2 : d ≤ daysInMonth y m) :
    parseIsoDate (renderDate y m d) = some (y, m, d) := by
  have hd31 : d ≤ 31 := le_trans hd2 (daysInMonth_le y m)
  have hyv : 1000 * (y / 1000 % 10) + 100 * (y / 100 % 10) + 10 * (y / 10 % 10) + y % 10
      = y := by omega
  have hmv : 10 * (m / 10 % 10) + m % 10 = m := by omega
  have hdv : 10 * (d / 10 % 10) + d % 10 = d := by omega
  simp only [renderDate, parseIsoDate, digitChar_isDigit, digitVal_digitChar]
  simp only [hyv, hmv, hdv]
  simp [hy1, hy2, hm1, hm2, hd1, hd2]

/-- Helper: parsing the rendered form of a valid time recovers its seconds. -/
theorem parseIsoTime_render (h mi t : Nat) (hh : h ≤ 23) (hmi : mi ≤ 59) (ht : t ≤ 59) :
    parseIsoTime (renderTime h mi t) = some (3600 * h + 60 * mi + t) := by
  have hhv : 10 * (h / 10 % 10) + h % 10 = h := by omega
  have hmv : 10 * (mi / 10 % 10) + mi % 10 = mi := by omega
  have htv : 10 * (t / 10 % 10) + t % 10 = t := by omega
  simp only [renderTime, parseIsoTime, digitChar_isDigit, digitVal_digitChar]
  simp only [hhv, hmv, htv]
  simp [hh, hmi, ht]

/-- Helper: a rendered date contains no 'T'. -/
theorem renderDate_contains_T (y m d : Nat) :
    (renderDate y m d).contains 'T' = false := by
  have k1 := (digitChar_ne (y / 1000)).2.2.2.2.2
  have k2 := (digitChar_ne (y / 100)).2.2.2.2.2
  have k3 := (digitChar_ne (y / 10)).2.2.2.2.2
  have k4 := (digitChar_ne y).2.2.2.2.2
  have k5 := (digitChar_ne (m / 10)).2.2.2.2.2
  have k6 := (digitChar_ne m).2.2.2.2.2
  have k7 := (digitChar_ne (d / 10)).2.2.2.2.2
  have k8 := (digitChar_ne d).2.2.2.2.2
  simp [renderDate, List.contains_eq_any_beq]
  exact ⟨Ne.symm k1, Ne.symm k2, Ne.symm k3, Ne.symm k4, Ne.symm k5,
    Ne.symm k6, Ne.symm k7, Ne.symm k8⟩

/-- Helper: the ISO timestamp of a rendered date with midnight appended. -/
theorem fromiso_render_date (y m d : Nat) (hy1 : 1 ≤ y) (hy2 : y ≤ 9999)
    (hm1 : 1 ≤ m) (hm2 : m ≤ 12) (hd1 : 1 ≤ d) (hd2 : d ≤ daysInMonth y m) :
    fromisoformatTimestamp (renderDate y m d ++ "T00:00:00".data)
      = some (86400 * daysFromCivil y m d) := by
  have hdate := parseIsoDate_render y m d hy1 hy2 hm1 hm2 hd1 hd2
  have htake : (renderDate y m d ++ "T00:00:00".data).take 10 = renderDate y m d := by
    simp [renderDate]
  have hdrop : (renderDate y m d ++ "T00:00:00".data).drop 10 = "T00:00:00".data := by
    simp [renderDate]
  have e1 : parseIsoTime ['0', '0', ':', '0', '0', ':', '0', '0'] = some 0 := by decide
  simp only [fromisoformatTimestamp, htake, hdrop, hdate]
  simp [e1]

/-- Helper: the ISO timestamp of a rendered date-time. -/
theorem fromiso_render_dt (y m d h mi t : Nat) (hy1 : 1 ≤ y) (hy2 : y ≤ 9999)
    (hm1 : 1 ≤ m) (hm2 : m ≤ 12) (hd1 : 1 ≤ d) (hd2 : d ≤ daysInMonth y m)
    (hh : h ≤ 23) (hmi : mi ≤ 59) (ht : t ≤ 59) :
    fromisoformatTimestamp (renderDate y m d ++ 'T' :: renderTime h mi t)
      = some (86400 * daysFromCivil y m d + ((3600 * h + 60 * mi + t : Nat) : Int)) := by
  have hdate := parseIsoDate_render y m d hy1 hy2 hm1 hm2 hd1 hd2
  have htime := parseIsoTime_render h mi t hh hmi ht
  have htake : (renderDate y m d ++ 'T' :: renderTime h mi t).take 10
      = renderDate y m d := by
    simp [renderDate]
  have hdrop : (renderDate y m d ++ 'T' :: renderTime h mi t).drop 10
      = 'T' :: renderTime h mi t := by
    simp [renderDate]
  simp only [fromisoformatTimestamp, htake, hdrop, hdate, htime]
  simp

/-- Helper: to_epoch on a rendered `YYYY-MM-DD` date is UTC midnight of that
    date. -/
theorem to_epochChars_render_date (y m d : Nat) (hy1 : 1 ≤ y) (hy2 : y ≤ 9999)
    (hm1 : 1 ≤ m) (hm2 : m ≤ 12) (hd1 : 1 ≤ d) (hd2 : d ≤ daysInMonth y m) :
    to_epochChars (renderDate y m d) = .ok (some (86400 * daysFromCivil y m d)) := by
  have h1 := pyIntOfFloat_renderDate y m d []
  rw [List.append_nil] at h1
  have h2 := renderDate_contains_T y m d
  have h3 := fromiso_render_date y m d hy1 hy2 hm1 hm2 hd1 hd2
  simp only [to_epochChars, h1, h2, h3]
  simp

/-- Helper: to_epoch on a rendered `YYYY-MM-DDTHH:MM:SS` date-time is its
    UTC epoch-second value. -/
theorem to_epochChars_render_dt (y m d h mi t : Nat) (hy1 : 1 ≤ y) (hy2 : y ≤ 9999)
    (hm1 : 1 ≤ m) (hm2 : m ≤ 12) (hd1 : 1 ≤ d) (hd2 : d ≤ daysInMonth y m)
    (hh : h ≤ 23) (hmi : mi ≤ 59) (ht : t ≤ 59) :
    to_epochChars (renderDate y m d ++ 'T' :: renderTime h mi t)
      = .ok (some (86400 * daysFromCivil y m d + ((3600 * h + 60 * mi + t : Nat) : Int))) := by
  have h1 := pyIntOfFloat_renderDate y m d ('T' :: renderTime h mi t)
  have h2 : (renderDate y m d ++ 'T' :: renderTime h mi t).contains 'T' = true := by
    simp [List.contains_eq_any_beq]
  have h3 := fromiso_render_dt y m d h mi t hy1 hy2 hm1 hm2 hd1 hd2 hh hmi ht
  simp only [to_epochChars, h1, h2, h3]
  simp

/-- C5 counterexample: the string "2025-08-01T14:30" matches none of the
    claim's three shapes (bare number, YYYY-MM-DD, YYYY-MM-DDTHH:MM:SS) yet
    to_epoch succeeds on it — fromisoformat also accepts date-times with
    seconds omitted — so parsing does not fail exactly when the string
    matches none of the three shapes. -/
theorem C5_shape_counterexample :
    to_epoch (some "2025-08-01T14:30") = .ok (some 1754058600) ∧
    specNumericShape "2025-08-01T14:30" = false ∧
    specDateShape "2025-08-01T14:30" = false ∧
    specDateTimeShape "2025-08-01T14:30" = false :=
  ⟨rfl, rfl, rfl, rfl⟩

/-- C5 (amended): to_epoch maps None to None, is the identity on bare digit
    strings (valid epoch-second strings), maps every valid YYYY-MM-DD date
    to UTC midnight of that date (in particular 2025-08-01 to 1754006400),
    maps every valid YYYY-MM-DDTHH:MM:SS date-time to its UTC epoch seconds,
    and fails on strings that parse neither as a number nor as an ISO
    date/date-time — but ISO parsing accepts more than shape (c) (see the
    counterexample), so failure is not exactly "none of the three shapes". -/
theorem C5_to_epoch_amended :
    to_epoch none = .ok none ∧
    (∀ s : String, s.data ≠ [] → (∀ c ∈ s.data, c.isDigit = true) →
      to_epoch (some s) = .ok (some ((digitsToNat s.data : Nat) : Int))) ∧
    (∀ y m d : Nat, 1 ≤ y → y ≤ 9999 → 1 ≤ m → m ≤ 12 → 1 ≤ d → d ≤ daysInMonth y m →
      to_epoch (some (String.mk (renderDate y m d)))
        = .ok (some (86400 * daysFromCivil y m d))) ∧
    (∀ y m d h mi t : Nat, 1 ≤ y → y ≤ 9999 → 1 ≤ m → m ≤ 12 → 1 ≤ d →
      d ≤ daysInMonth y m → h ≤ 23 → mi ≤ 59 → t ≤ 59 →
      to_epoch (some (String.mk (renderDate y m d ++ 'T' :: renderTime h mi t)))
        = .ok (some (86400 * daysFromCivil y m d + ((3600 * h + 60 * mi + t : Nat) : Int)))) ∧
    to_epoch (some "2025-08-01") = .ok (some 1754006400) ∧
    to_epoch (some "2025-08-01T14:30:00") = .ok (some 1754058600) ∧
    to_epoch (some "banana") = .error () ∧
    to_epoch (some "2025-13-01") = .error () := by
  refine ⟨rfl, to_epoch_digits, ?_, ?_, rfl, rfl, rfl, rfl⟩
  · intro y m d hy1 hy2 hm1 hm2 hd1 hd2
    exact to_epochChars_render_date y m d hy1 hy2 hm1 hm2 hd1 hd2
  · intro y m d h mi t hy1 hy2 hm1 hm2 hd1 hd2 hh hmi ht
    exact to_epochChars_render_dt y m d h mi t hy1 hy2 hm1 hm2 hd1 hd2 hh hmi ht

/-- Witness for C5's amended theorem at concrete inputs. -/
theorem C5_to_epoch_witness :
    to_epoch (some "1722575400") = .ok (some 1722575400) ∧
    to_epoch (some (String.mk (renderDate 2025 8 1))) = .ok (some 1754006400) := by
  constructor
  · have h := C5_to_epoch_amended.2.1 "1722575400" (by decide) (by decide)
    rw [h]
    rfl
  · have h := C5_to_epoch_amended.2.2.1 2025 8 1 (by decide) (by decide) (by decide)
      (by decide) (by decide) (by decide)
    rw [h]
    rfl

/- ----- C6: normalize ----- -/

/-- Helper: looking up a listed field in the normalized dict yields the
    transformed value for that field. -/
theorem normalizeDict_lookup (obj : List (String × PyVal)) (fields : List String)
    (k : String) (hk : k ∈ fields) :
    (normalizeDict obj fields).lookup k = some (normField obj k) := by
  induction fields with
  | nil => cases hk
  | cons f fs ih =>
    by_cases hkf : k = f
    · subst hkf
      simp [normalizeDict, List.lookup]
    · have hmem : k ∈ fs := by
        rcases List.mem_cons.mp hk with h | h
        · exact absurd h hkf
        · exact h
      have hbeq : (k == f) = false := beq_eq_false_iff_ne.mpr hkf
      simp only [normalizeDict, List.map_cons, List.lookup, hbeq]
      exact ih hmem

/-- C6: normalization produces a flat mapping whose keys are exactly the
    listed fields (in order); a field missing from the record becomes None
    rather than raising; a non-string non-None author value is reduced to
    its display name, or None when it has none; a non-string community
    reference is reduced to its display name, falling back to its raw string
    form; a plain-string value and every field other than author/subreddit
    pass through unchanged. -/
theorem C6_normalize (obj : List (String × PyVal)) (fields : List String) :
    ((normalizeDict obj fields).map Prod.fst = fields) ∧
    (∀ k, k ∈ fields → obj.lookup k = none →
      (normalizeDict obj fields).lookup k = some PyVal.null) ∧
    (∀ v, "author" ∈ fields → obj.lookup "author" = some v → v ≠ PyVal.null →
      v.isStr = false →
      (normalizeDict obj fields).lookup "author"
        = some (match v with
                | PyVal.redditor (some n) => PyVal.str n
                | _ => PyVal.null)) ∧
    (∀ dn raw, "subreddit" ∈ fields →
      obj.lookup "subreddit" = some (PyVal.subredditRef dn raw) →
      (normalizeDict obj fields).lookup "subreddit"
        = some (PyVal.str (dn.getD raw))) ∧
    (∀ k v, k ∈ fields → k ≠ "author" → k ≠ "subreddit" → obj.lookup k = some v →
      (normalizeDict obj fields).lookup k = some v) ∧
    (∀ k t, k ∈ fields → obj.lookup k = some (PyVal.str t) →
      (normalizeDict obj fields).lookup k = some (PyVal.str t)) := by
  refine ⟨?_, ?_, ?_, ?_, ?_, ?_⟩
  · induction fields with
    | nil => rfl
    | cons f fs ih => simpa [normalizeDict] using ih
  · intro k hk hnone
    rw [normalizeDict_lookup obj fields k hk]
    simp [normField, pyGet, hnone]
  · intro v hk hv hvn hvs
    rw [normalizeDict_lookup obj fields "author" hk]
    have : ("author" : String) ≠ "subreddit" := by decide
    cases v <;> simp_all [normField, pyGet, getattrName, PyVal.isStr]
  · intro dn raw hk hv
    rw [normalizeDict_lookup obj fields "subreddit" hk]
    have : ("subreddit" : String) ≠ "author" := by decide
    cases dn <;> simp_all [normField, pyGet, subredditCoerce, pyStr, PyVal.isStr]
  · intro k v hk hka hks hv
    rw [normalizeDict_lookup obj fields k hk]
    simp [normField, pyGet, hv, hka, hks]
  · intro k t hk hv
    rw [normalizeDict_lookup obj fields k hk]
    simp [normField, pyGet, hv, PyVal.isStr]

/-- Witness for C6 on a record holding a non-string author object and a
    non-string community reference without display name, against the real
    submission field list. -/
theorem C6_normalize_witness :
    (normalizeDict
        [("author", PyVal.redditor (some "alice")),
         ("subreddit", PyVal.subredditRef none "hikingHungary")]
        SUB_FIELDS).lookup "author" = some (PyVal.str "alice") ∧
    (normalizeDict
        [("author", PyVal.redditor (some "alice")),
         ("subreddit", PyVal.subredditRef none "hikingHungary")]
        SUB_FIELDS).lookup "subreddit" = some (PyVal.str "hikingHungary") := by
  constructor
  · have h := (C6_normalize
        [("author", PyVal.redditor (some "alice")),
         ("subreddit", PyVal.subredditRef none "hikingHungary")]
        SUB_FIELDS).2.2.1 (PyVal.redditor (some "alice"))
        (by decide) (by decide) (by decide) (by decide)
    rw [h]
  · have h := (C6_normalize
        [("author", PyVal.redditor (some "alice")),
         ("subreddit", PyVal.subredditRef none "hikingHungary")]
        SUB_FIELDS).2.2.2.1 none "hikingHungary" (by decide) (by decide)
    rw [h]
    rfl

/- ----- C8: load_subreddits_from_file ----- -/

/-- Helper: every token produced by the whitespace split is nonempty. -/
theorem tokensAux_ne_nil (cs : List Char) :
    ∀ acc t, t ∈ tokensAux cs acc → t ≠ [] := by
  induction cs with
  | nil =>
    intro acc t ht
    by_cases h : acc = []
    · simp [tokensAux, h] at ht
    · simp [tokensAux, h] at ht
      subst ht
      simp [List.reverse_eq_nil_iff, h]
  | cons c r ih =>
    intro acc t ht
    by_cases hw : c.isWhitespace
    · by_cases h : acc = []
      · simp [tokensAux, hw, h] at ht
        exact ih [] t ht
      · simp [tokensAux, hw, h] at ht
        rcases ht with rfl | ht
        · simp [List.reverse_eq_nil_iff, h]
        · exact ih [] t ht
    · simp [tokensAux, hw] at ht
      exact ih (c :: acc) t ht

/-- Helper: when no kept line is left without a token, the loader loop is the
    de-duplicating fold of the claim's token stream over the accumulator. -/
theorem loadGo_spec (lines : List String)
    (h : ∀ raw ∈ lines, lineKept raw = true → pyTokens (markerStripped raw) ≠ []) :
    ∀ subs : List String,
      loadGo lines subs =
        (if (specLoadTokens lines).foldl
              (fun acc t => if t ∈ acc then acc else acc ++ [t]) subs = []
         then .error .emptyFile
         else .ok ((specLoadTokens lines).foldl
              (fun acc t => if t ∈ acc then acc else acc ++ [t]) subs)) := by
  induction lines with
  | nil => intro subs; simp [loadGo, specLoadTokens]
  | cons raw rest ih =>
    intro subs
    have ih' := ih (fun r hr hk => h r (List.mem_cons_of_mem raw hr) hk)
    by_cases hkept : lineKept raw = true
    · obtain ⟨tok, ts, htoks⟩ : ∃ tok ts, pyTokens (markerStripped raw) = tok :: ts := by
        cases htk : pyTokens (markerStripped raw) with
        | nil => exact absurd htk (h raw (List.mem_cons_self raw rest) hkept)
        | cons a b => exact ⟨a, b, rfl⟩
      have htokmem : tok ∈ tokensAux (markerStripped raw) [] := by
        have : tok ∈ pyTokens (markerStripped raw) := by
          rw [htoks]; exact List.mem_cons_self tok ts
        simpa [pyTokens] using this
      have htokne : tok ≠ [] := tokensAux_ne_nil (markerStripped raw) [] tok htokmem
      have hmkne : String.mk tok ≠ "" := by
        intro hc
        apply htokne
        have := congrArg String.data hc
        simpa using this
      have hft : firstToken (markerStripped raw) = some (String.mk tok) := by
        simp [firstToken, pyTokens] at htoks ⊢
        simp [htoks]
      simp only [loadGo, hkept, if_true, htoks]
      by_cases hmem : String.mk tok ∈ subs
      · rw [if_neg (by simp [hmem])]
        rw [ih' subs]
        simp only [specLoadTokens, List.filterMap_cons, hkept, if_true, hft,
          List.foldl_cons]
        simp [hmem]
      · rw [if_pos ⟨hmkne, hmem⟩]
        rw [ih' (subs ++ [String.mk tok])]
        simp only [specLoadTokens, List.filterMap_cons, hkept, if_true, hft,
          List.foldl_cons]
        simp [hmem]
    · simp only [loadGo, hkept, if_false]
      rw [ih' subs]
      simp only [specLoadTokens, List.filterMap_cons, hkept]
      simp

/-- C8 (amended): provided no kept line is left without a token by the
    marker strip (a line whose stripped form is just the marker "r/" makes
    the loader crash with an IndexError, see the counterexample), the loader
    returns exactly the claim's list — blank and comment lines ignored, the
    leading namespace marker stripped, the first whitespace-delimited token
    kept, duplicates removed preserving first-seen order — and fails with an
    error rather than returning an empty list. -/
theorem C8_load_subreddits (lines : List String)
    (h : ∀ raw ∈ lines, lineKept raw = true → pyTokens (markerStripped raw) ≠ []) :
    load_subreddits_from_file lines = specLoadSubreddits lines := by
  have key := loadGo_spec lines h []
  rw [load_subreddits_from_file, key]
  simp [specLoadSubreddits, dedupKeepFirst]

/-- C8 counterexample: on the file with lines "r/" and "foo" the loader
    raises an uncaught IndexError (the marker-only line strips to the empty
    string, whose split has no first element), while the list described by
    the claim is  ["foo"]. -/
theorem C8_marker_only_counterexample :
    load_subreddits_from_file ["r/", "foo"] = .error .indexError ∧
    specLoadSubreddits ["r/", "foo"] = .ok ["foo"] ∧
    load_subreddits_from_file ["r/", "foo"] ≠ specLoadSubreddits ["r/", "foo"] := by
  refine ⟨rfl, rfl, ?_⟩
  intro hc
  rw [(rfl : load_subreddits_from_file ["r/", "foo"] = .error .indexError)] at hc
  rw [(rfl : specLoadSubreddits ["r/", "foo"] = .ok ["foo"])] at hc
  exact Except.noConfusion hc

/-- Witness for C8 on a file with a comment, a blank, a marker-prefixed
    line with a second token, and a duplicate. -/
theorem C8_load_subreddits_witness :
    load_subreddits_from_file ["# comment", "", "r/Foo bar", "foo", "Foo"]
      = .ok ["Foo", "foo"] := by
  rw [C8_load_subreddits ["# comment", "", "r/Foo bar", "foo", "Foo"] (by decide)]
  rfl

/- ----- C9, C10: last_submission_ts ----- -/

/-- Helper: once a value is held, the probe's fold computes the running
    minimum of the per-line values. -/
theorem lastStep_fold_min (lines : List NdLine) :
    ∀ t : Int,
      lines.foldl lastStep (some t)
        = some ((lines.filterMap lineValue).foldl min t) := by
  induction lines with
  | nil => intro t; simp
  | cons l ls ih =>
    intro t
    cases l with
    | malformed =>
      simp only [List.foldl_cons, lastStep, List.filterMap_cons, lineValue]
      exact ih t
    | record cu =>
      simp only [List.foldl_cons, lastStep, List.filterMap_cons, lineValue]
      have hmin : (if cu.getD 0 < t then some (cu.getD 0) else some t)
          = some (min t (cu.getD 0)) := by
        split_ifs with h
        · simp [min_def]
          omega
        · simp [min_def]
          omega
      rw [hmin, ih (min t (cu.getD 0))]

/-- C9 (amended): last_submission_ts returns None for an absent file, and
    otherwise the minimum over the parseable lines of their created_utc
    value where a parseable line missing the key counts as 0 (so None
    exactly when no line is parseable); malformed lines are skipped. -/
theorem C9_resume_min :
    last_submission_ts none = none ∧
    (∀ lines : List NdLine,
      last_submission_ts (some lines) = (lines.filterMap lineValue).min?) := by
  refine ⟨rfl, ?_⟩
  intro lines
  induction lines with
  | nil => rfl
  | cons l ls ih =>
    cases l with
    | malformed =>
      simp only [last_submission_ts, List.foldl_cons, lastStep,
        List.filterMap_cons, lineValue]
      exact ih
    | record cu =>
      simp only [last_submission_ts, List.foldl_cons, lastStep,
        List.filterMap_cons, lineValue]
      rw [lastStep_fold_min ls (cu.getD 0)]
      simp [List.min?]

/-- C9 counterexample: on a file whose lines are a record with created_utc
    100 and a well-formed record without the key, the probe returns 0 — not
    100, the minimum creation timestamp actually observed across the
    parseable lines — so the claim's description fails. -/
theorem C9_missing_field_counterexample :
    last_submission_ts (some [NdLine.record (some 100), NdLine.record none])
      = some 0 ∧
    specObservedMin [NdLine.record (some 100), NdLine.record none] = some 100 ∧
    (some (0 : Int)) ≠ some (100 : Int) := by
  refine ⟨rfl, rfl, by decide⟩

/-- C10: a posts file of well-formed lines none of which carries a
    created_utc key makes the probe return 0 rather than None, although no
    line of the file has 0 (or anything) as its timestamp. -/
theorem C10_keyless_lines_zero :
    last_submission_ts (some [NdLine.record none, NdLine.record none])
      = some 0 ∧
    (∀ l ∈ [NdLine.record none, NdLine.record none], l = NdLine.record none) ∧
    specObservedMin [NdLine.record none, NdLine.record none] = none := by
  refine ⟨rfl, by decide, rfl⟩
